import Mathlib

/-!
# Verification of `Exports.h` (jdk.packager native library)

`src/jdk.packager/share/native/library/common/Exports.h` is a machine-generated
JNI header.  It contains five function prototypes, each preceded by a comment
block giving the Java class, the Java method and the JNI type descriptor the
prototype was generated from.

The header is embedded as data: one `ExportDecl` record per prototype, in file
order, holding the three comment fields and the pieces of the C prototype.
-/

namespace Exports

/-! ## The header as data -/

/-- C types that occur in the prototypes of `Exports.h`. -/
inductive CType where
  | void
  | jstring
  | jobjectArray
  | jclass
  | JNIEnv
  | ptr (target : CType)
  deriving DecidableEq, Repr

/-- One prototype of `Exports.h` together with the comment block above it. -/
structure ExportDecl where
  /-- The `Class:` line of the comment. -/
  className : String
  /-- The `Method:` line of the comment. -/
  method : String
  /-- The `Signature:` line of the comment. -/
  signature : String
  /-- Whether the prototype carries `JNIEXPORT`. -/
  jniExport : Bool
  /-- Whether the prototype carries `JNICALL`. -/
  jniCall : Bool
  /-- The C return type. -/
  returnType : CType
  /-- The C identifier being declared. -/
  symbol : String
  /-- The C parameter types, in order. -/
  params : List CType
  deriving DecidableEq, Repr

/-- Lines 35-42 of `Exports.h`. -/
def getUserJvmOptionDefaultValue : ExportDecl where
  className := "jdk_packager_services_userjvmoptions_LauncherUserJvmOptions"
  method := "_getUserJvmOptionDefaultValue"
  signature := "(Ljava/lang/String;)Ljava/lang/String;"
  jniExport := true
  jniCall := true
  returnType := .jstring
  symbol :=
    "Java_jdk_packager_services_userjvmoptions_LauncherUserJvmOptions__1getUserJvmOptionDefaultValue"
  params := [.ptr .JNIEnv, .jclass, .jstring]

/-- Lines 44-51 of `Exports.h`. -/
def getUserJvmOptionDefaultKeys : ExportDecl where
  className := "jdk_packager_services_userjvmoptions_LauncherUserJvmOptions"
  method := "_getUserJvmOptionDefaultKeys"
  signature := "()[Ljava/lang/String;"
  jniExport := true
  jniCall := true
  returnType := .jobjectArray
  symbol :=
    "Java_jdk_packager_services_userjvmoptions_LauncherUserJvmOptions__1getUserJvmOptionDefaultKeys"
  params := [.ptr .JNIEnv, .jclass]

/-- Lines 53-60 of `Exports.h`. -/
def getUserJvmOptionValue : ExportDecl where
  className := "jdk_packager_services_userjvmoptions_LauncherUserJvmOptions"
  method := "_getUserJvmOptionValue"
  signature := "(Ljava/lang/String;)Ljava/lang/String;"
  jniExport := true
  jniCall := true
  returnType := .jstring
  symbol :=
    "Java_jdk_packager_services_userjvmoptions_LauncherUserJvmOptions__1getUserJvmOptionValue"
  params := [.ptr .JNIEnv, .jclass, .jstring]

/-- Lines 62-69 of `Exports.h`. -/
def setUserJvmKeysAndValues : ExportDecl where
  className := "jdk_packager_services_userjvmoptions_LauncherUserJvmOptions"
  method := "_setUserJvmKeysAndValues"
  signature := "([Ljava/lang/String;[Ljava/lang/String;)V"
  jniExport := true
  jniCall := true
  returnType := .void
  symbol :=
    "Java_jdk_packager_services_userjvmoptions_LauncherUserJvmOptions__1setUserJvmKeysAndValues"
  params := [.ptr .JNIEnv, .jclass, .jobjectArray, .jobjectArray]

/-- Lines 71-78 of `Exports.h`. -/
def getUserJvmOptionKeys : ExportDecl where
  className := "jdk_packager_services_userjvmoptions_LauncherUserJvmOptions"
  method := "_getUserJvmOptionKeys"
  signature := "()[Ljava/lang/String;"
  jniExport := true
  jniCall := true
  returnType := .jobjectArray
  symbol :=
    "Java_jdk_packager_services_userjvmoptions_LauncherUserJvmOptions__1getUserJvmOptionKeys"
  params := [.ptr .JNIEnv, .jclass]

/-- The prototypes of the header (lines 35-78), in file order. -/
def exportsHeader : List ExportDecl :=
  [ getUserJvmOptionDefaultValue
  , getUserJvmOptionDefaultKeys
  , getUserJvmOptionValue
  , setUserJvmKeysAndValues
  , getUserJvmOptionKeys ]

/-- The class named on line 28 (`Header for class ...`) and in the include guard. -/
def headerClass : String :=
  "jdk_packager_services_userjvmoptions_LauncherUserJvmOptions"

/-- The arguments a managed caller passes: the prototype's parameters after the
leading `JNIEnv *` and `jclass` that the runtime supplies. -/
def ExportDecl.callerArgs (d : ExportDecl) : List CType :=
  d.params.drop 2

/-- A C type that carries a sequence (a Java array reference). -/
def CType.isSequence : CType → Bool
  | .jobjectArray => true
  | _ => false

/-! ## The operation names used by the specification -/

/-- The five operations of the option bridge, in the order the specification
lists them. -/
inductive Operation where
  | GetDefaultValue
  | GetDefaultKeys
  | GetCurrentValue
  | SetKeysAndValues
  | GetCurrentKeys
  deriving DecidableEq, Repr

/-- The Java method each operation of the specification stands for. -/
def Operation.method : Operation → String
  | .GetDefaultValue => "_getUserJvmOptionDefaultValue"
  | .GetDefaultKeys => "_getUserJvmOptionDefaultKeys"
  | .GetCurrentValue => "_getUserJvmOptionValue"
  | .SetKeysAndValues => "_setUserJvmKeysAndValues"
  | .GetCurrentKeys => "_getUserJvmOptionKeys"

/-- All operations, in the specification's order. -/
def Operation.all : List Operation :=
  [.GetDefaultValue, .GetDefaultKeys, .GetCurrentValue, .SetKeysAndValues, .GetCurrentKeys]

/-- The declaration of the header that carries the method of operation `op`. -/
def declOf (op : Operation) : Option ExportDecl :=
  exportsHeader.find? fun d => d.method == op.method

/-! ## JNI symbol names -/

/-- Escape of a method name for a JNI symbol: every underscore becomes `_1`,
every other character is kept. -/
def escapeUnderscore (name : String) : String :=
  String.mk (name.data.flatMap fun c => if c = '_' then ['_', '1'] else [c])

/-- The JNI symbol for a method of a class: `Java_`, the class name, `_`, and
the escaped method name. -/
def jniSymbolName (cls method : String) : String :=
  "Java_" ++ cls ++ "_" ++ escapeUnderscore method

/-! ## JNI type descriptors -/

/-- Types of the JNI descriptor language. -/
inductive JType where
  | void
  | primitive (code : Char)
  | object (cls : String)
  | array (elem : JType)
  deriving DecidableEq, Repr

/-- Read one field type from the front of a descriptor: a primitive code, an
object type `L<class>;`, or `[` followed by a field type. -/
def parseFieldType : List Char → Option (JType × List Char)
  | [] => none
  | c :: rest =>
    if c = '[' then
      match parseFieldType rest with
      | some (t, rest') => some (.array t, rest')
      | none => none
    else if c = 'L' then
      match rest.span (fun x => x != ';') with
      | (cls, _ :: rest') => some (.object (String.mk cls), rest')
      | (_, []) => none
    else if c ∈ ['B', 'C', 'D', 'F', 'I', 'J', 'S', 'Z'] then
      some (.primitive c, rest)
    else
      none

/-- Read the argument types of a descriptor up to and including the closing
parenthesis.  Every step consumes a character, so a fuel above the length of the
input never runs out. -/
def parseArgs : Nat → List Char → Option (List JType × List Char)
  | 0, _ => none
  | fuel + 1, cs =>
    match cs with
    | [] => none
    | c :: rest =>
      if c = ')' then some ([], rest)
      else
        match parseFieldType (c :: rest) with
        | some (t, rest') =>
          match parseArgs fuel rest' with
          | some (ts, rest'') => some (t :: ts, rest'')
          | none => none
        | none => none

/-- Read the return type of a descriptor: `V`, or a field type, with nothing after it. -/
def parseReturnType (cs : List Char) : Option JType :=
  if cs = ['V'] then some .void
  else
    match parseFieldType cs with
    | some (t, []) => some t
    | _ => none

/-- Read a method descriptor `(<args>)<return>` into its argument types and
its return type. -/
def parseDescriptor (sig : String) : Option (List JType × JType) :=
  match sig.data with
  | [] => none
  | c :: cs =>
    if c = '(' then
      match parseArgs (cs.length + 1) cs with
      | some (args, rest) =>
        match parseReturnType rest with
        | some ret => some (args, ret)
        | none => none
      | none => none
    else none

/-- The descriptor type `Ljava/lang/String;`. -/
def JType.string : JType := .object "java/lang/String"

/-- The C type of a parameter with a given descriptor type: `jstring` for
`Ljava/lang/String;`, `jobjectArray` for `[Ljava/lang/String;`. -/
def cParamType (t : JType) : Option CType :=
  if t = JType.string then some .jstring
  else if t = .array JType.string then some .jobjectArray
  else none

/-- The C return type for a given descriptor return type: `void` for `V`,
otherwise as for a parameter. -/
def cReturnType (t : JType) : Option CType :=
  if t = .void then some .void else cParamType t

/-- The C prototype a descriptor calls for, for a static native method: the
return type, and the parameters `JNIEnv *`, `jclass`, then one per argument. -/
def prototypeOfDescriptor (sig : String) : Option (CType × List CType) :=
  match parseDescriptor sig with
  | none => none
  | some (args, ret) =>
    match args.mapM cParamType, cReturnType ret with
    | some ps, some r => some (r, .ptr .JNIEnv :: .jclass :: ps)
    | _, _ => none

/-- Modelled from the spec: the values of the JNI reference types, which are
declared in `jni.h` and not in this header.  A string reference is a nullable
string ("present-with-value vs. absent"), an array reference is a nullable
sequence of such, `void` carries no value. -/
def CType.Value : CType → Type
  | .jstring => Option String
  | .jobjectArray => Option (List (Option String))
  | _ => Unit

/-! ## The option bridge behind the header

The bodies of the five functions are not part of `Exports.h`.  The model below
is the bridge contract of the specification: two key/value mappings, four
read-only operations and one bulk write.
-/

namespace Bridge

/-- Modelled from the spec: a key/value mapping with unique keys, kept in
insertion order ("insertion/declaration order should be treated as the only
meaningful order").  The store itself is not in the header. -/
abbrev Mapping := List (String × String)

/-- Modelled from the spec: the value a mapping holds for a key, absent when the
key is unknown.  The lookup itself is not in the header. -/
def lookupValue : Mapping → String → Option String
  | [], _ => none
  | (k, v) :: rest, key => if k = key then some v else lookupValue rest key

/-- Modelled from the spec: all keys of a mapping, in the mapping's order.  The
enumeration itself is not in the header. -/
def mappingKeys (m : Mapping) : List String :=
  m.map Prod.fst

/-- Modelled from the spec: "upsert per pair", the write of one key/value pair
into a mapping: the value of a known key is replaced in place, an unknown key is
added at the end.  The write itself is not in the header. -/
def upsert : Mapping → String → String → Mapping
  | [], key, value => [(key, value)]
  | (k, v) :: rest, key, value =>
    if k = key then (k, value) :: rest else (k, v) :: upsert rest key value

/-- Modelled from the spec: the write of a sequence of pairs, "one pair per
position", in position order.  The write itself is not in the header. -/
def applyPairs : Mapping → List (String × String) → Mapping
  | m, [] => m
  | m, (k, v) :: rest => applyPairs (upsert m k v) rest

/-- Modelled from the spec: the native-side state behind the bridge, a
read-only default mapping and a read/write current mapping.  The state is held
by the implementation, which is not in the header. -/
structure BridgeState where
  /-- The default mapping. -/
  defaultMapping : Mapping
  /-- The current mapping. -/
  currentMapping : Mapping
  deriving DecidableEq, Repr

/-- Modelled from the spec: the error taxonomy of section 7 as far as the
operations below raise it.  Error signalling is not in the header. -/
inductive BridgeError where
  | invalidArgument
  deriving DecidableEq, Repr

/-- Modelled from the spec: the specification leaves open whether
`SetKeysAndValues` "replaces (or merges into)" the current mapping; both
readings are kept.  The choice is made by the implementation, which is not in
the header. -/
inductive WritePolicy where
  | replace
  | merge
  deriving DecidableEq, Repr

/-- Modelled from the spec: operation 1, `GetDefaultValue(key)`, the default
value registered for the key or absent; no side effects.  The body of
`_getUserJvmOptionDefaultValue` is not in the header. -/
def GetDefaultValue (key : String) (s : BridgeState) : Option String × BridgeState :=
  (lookupValue s.defaultMapping key, s)

/-- Modelled from the spec: operation 2, `GetDefaultKeys()`, all keys with a
registered default; no side effects.  The body of `_getUserJvmOptionDefaultKeys`
is not in the header. -/
def GetDefaultKeys (s : BridgeState) : List String × BridgeState :=
  (mappingKeys s.defaultMapping, s)

/-- Modelled from the spec: operation 3, `GetCurrentValue(key)`, as operation 1
against the current mapping.  The body of `_getUserJvmOptionValue` is not in the
header. -/
def GetCurrentValue (key : String) (s : BridgeState) : Option String × BridgeState :=
  (lookupValue s.currentMapping key, s)

/-- Modelled from the spec: operation 4, `SetKeysAndValues(keys, values)`.
Sequences of differing length are rejected with no effect; otherwise position
`i` of `keys` pairs with position `i` of `values` and the pairs are written into
the current mapping (merge) or into an empty one that replaces it (replace).
The body of `_setUserJvmKeysAndValues` is not in the header. -/
def SetKeysAndValues (policy : WritePolicy) (keys values : List String) (s : BridgeState) :
    Except BridgeError Unit × BridgeState :=
  if keys.length = values.length then
    let base : Mapping :=
      match policy with
      | .replace => []
      | .merge => s.currentMapping
    (.ok (), { s with currentMapping := applyPairs base (keys.zip values) })
  else
    (.error .invalidArgument, s)

/-- Modelled from the spec: operation 5, `GetCurrentKeys()`, as operation 2
against the current mapping.  The body of `_getUserJvmOptionKeys` is not in the
header. -/
def GetCurrentKeys (s : BridgeState) : List String × BridgeState :=
  (mappingKeys s.currentMapping, s)

/-- The round trip as the specification words it: after the write, the key at
every position is listed by `GetCurrentKeys` and `GetCurrentValue` of it is the
value at that position. -/
def RoundTrip (policy : WritePolicy) (keys values : List String) (s : BridgeState) : Prop :=
  ∀ (i : Nat) (k v : String), keys[i]? = some k → values[i]? = some v →
    k ∈ (GetCurrentKeys (SetKeysAndValues policy keys values s).2).1 ∧
    (GetCurrentValue k (SetKeysAndValues policy keys values s).2).1 = some v

/-- Equal keys carry equal values: two positions of `keys` that hold the same
key hold the same value in `values`. -/
def ConsistentPairs (keys values : List String) : Prop :=
  ∀ (i j : Nat) (k v w : String), keys[i]? = some k → keys[j]? = some k →
    values[i]? = some v → values[j]? = some w → v = w

/-! ### Lemmas on mappings -/

theorem lookupValue_upsert_self (m : Mapping) (k v : String) :
    lookupValue (upsert m k v) k = some v := by
  induction m with
  | nil => simp [upsert, lookupValue]
  | cons p rest ih =>
    obtain ⟨k0, v0⟩ := p
    by_cases h : k0 = k
    · simp [upsert, lookupValue, h]
    · simp [upsert, lookupValue, h, ih]

theorem lookupValue_upsert_of_ne (m : Mapping) (k key v : String) (h : k ≠ key) :
    lookupValue (upsert m k v) key = lookupValue m key := by
  induction m with
  | nil => simp [upsert, lookupValue, h]
  | cons p rest ih =>
    obtain ⟨k0, v0⟩ := p
    by_cases h0 : k0 = k
    · subst h0
      simp [upsert, lookupValue, h]
    · simp [upsert, lookupValue, h0, ih]

theorem mem_mappingKeys_upsert (m : Mapping) (k v key : String) :
    key ∈ mappingKeys (upsert m k v) ↔ key = k ∨ key ∈ mappingKeys m := by
  induction m with
  | nil => simp [upsert, mappingKeys]
  | cons p rest ih =>
    obtain ⟨k0, v0⟩ := p
    by_cases h0 : k0 = k
    · subst h0
      simp [upsert, mappingKeys]
    · simp only [mappingKeys] at ih
      simp only [upsert, h0, mappingKeys, if_false, List.map_cons, List.mem_cons, ih]
      tauto

theorem lookupValue_applyPairs_of_not_mem (ps : List (String × String)) (m : Mapping)
    (key : String) (h : key ∉ ps.map Prod.fst) :
    lookupValue (applyPairs m ps) key = lookupValue m key := by
  induction ps generalizing m with
  | nil => rfl
  | cons p rest ih =>
    obtain ⟨k0, v0⟩ := p
    simp only [List.map_cons, List.mem_cons, not_or] at h
    simp only [applyPairs]
    rw [ih _ h.2]
    exact lookupValue_upsert_of_ne m k0 key v0 (fun e => h.1 e.symm)

theorem lookupValue_applyPairs (ps : List (String × String)) (m : Mapping) (key v : String)
    (hmem : (key, v) ∈ ps) (hone : ∀ w, (key, w) ∈ ps → w = v) :
    lookupValue (applyPairs m ps) key = some v := by
  induction ps generalizing m with
  | nil => simp at hmem
  | cons p rest ih =>
    obtain ⟨k0, v0⟩ := p
    simp only [applyPairs]
    by_cases hlater : key ∈ rest.map Prod.fst
    · obtain ⟨⟨k1, w⟩, hq, hk⟩ := List.mem_map.mp hlater
      simp only at hk
      subst hk
      have hw : w = v := hone w (List.mem_cons_of_mem _ hq)
      subst hw
      exact ih _ hq (fun w' hw' => hone w' (List.mem_cons_of_mem _ hw'))
    · rw [lookupValue_applyPairs_of_not_mem rest _ key hlater]
      rcases List.mem_cons.mp hmem with heq | hrest
      · cases heq
        exact lookupValue_upsert_self m key v
      · exact absurd (List.mem_map.mpr ⟨(key, v), hrest, rfl⟩) hlater

theorem mem_mappingKeys_applyPairs (ps : List (String × String)) (m : Mapping) (key : String) :
    key ∈ mappingKeys (applyPairs m ps) ↔ key ∈ ps.map Prod.fst ∨ key ∈ mappingKeys m := by
  induction ps generalizing m with
  | nil => simp [applyPairs]
  | cons p rest ih =>
    obtain ⟨k0, v0⟩ := p
    simp only [applyPairs, ih, mem_mappingKeys_upsert, List.map_cons, List.mem_cons]
    tauto

theorem nodup_mappingKeys_upsert (m : Mapping) (k v : String)
    (h : (mappingKeys m).Nodup) : (mappingKeys (upsert m k v)).Nodup := by
  induction m with
  | nil => simp [upsert, mappingKeys]
  | cons p rest ih =>
    obtain ⟨k0, v0⟩ := p
    by_cases h0 : k0 = k
    · subst h0
      simpa [upsert, mappingKeys] using h
    · have hcons : k0 ∉ mappingKeys rest ∧ (mappingKeys rest).Nodup := by
        simpa [mappingKeys] using h
      have hk0 : k0 ∉ mappingKeys (upsert rest k v) := by
        rw [mem_mappingKeys_upsert]
        exact fun hk => hk.elim h0 hcons.1
      have hrest := ih hcons.2
      simp only [upsert, h0, if_false]
      exact List.nodup_cons.mpr ⟨hk0, hrest⟩

theorem nodup_mappingKeys_applyPairs (ps : List (String × String)) (m : Mapping)
    (h : (mappingKeys m).Nodup) : (mappingKeys (applyPairs m ps)).Nodup := by
  induction ps generalizing m with
  | nil => exact h
  | cons p rest ih =>
    obtain ⟨k0, v0⟩ := p
    exact ih _ (nodup_mappingKeys_upsert m k0 v0 h)

theorem mem_zip_iff_getElem? (keys values : List String) (k v : String) :
    (k, v) ∈ keys.zip values ↔ ∃ i : Nat, keys[i]? = some k ∧ values[i]? = some v := by
  rw [List.mem_iff_getElem?]
  simp only [List.getElem?_zip_eq_some]

theorem consistentPairs_of_nodup (keys values : List String) (h : keys.Nodup) :
    ConsistentPairs keys values := by
  intro i j k v w hi hj hv hw
  obtain ⟨hi', hik⟩ := List.getElem?_eq_some.mp hi
  obtain ⟨hj', hjk⟩ := List.getElem?_eq_some.mp hj
  have hij : i = j := (List.Nodup.getElem_inj_iff h).mp (hik.trans hjk.symm)
  subst hij
  rw [hv] at hw
  exact Option.some.inj hw

end Bridge

/-! ## Claims about the header -/

/-- C1: the header declares exactly five functions, each exported and each of
the class `jdk_packager_services_userjvmoptions_LauncherUserJvmOptions`; their
methods are, in file order, `_getUserJvmOptionDefaultValue`,
`_getUserJvmOptionDefaultKeys`, `_getUserJvmOptionValue`,
`_setUserJvmKeysAndValues`, `_getUserJvmOptionKeys`, which are the methods of
the specification's five operations in the specification's order; no two
declarations share a method name or a symbol. -/
theorem header_declares_five_exports :
    exportsHeader.length = 5 ∧
    (∀ d ∈ exportsHeader, d.jniExport = true ∧ d.jniCall = true ∧
      d.className = "jdk_packager_services_userjvmoptions_LauncherUserJvmOptions" ∧
      d.className = headerClass) ∧
    exportsHeader.map (fun d => d.method) =
      ["_getUserJvmOptionDefaultValue", "_getUserJvmOptionDefaultKeys",
       "_getUserJvmOptionValue", "_setUserJvmKeysAndValues", "_getUserJvmOptionKeys"] ∧
    exportsHeader.map (fun d => d.method) = Operation.all.map Operation.method ∧
    (exportsHeader.map (fun d => d.method)).Nodup ∧
    (exportsHeader.map (fun d => d.symbol)).Nodup := by
  decide

/-- C2: the declarations of `GetDefaultValue` and `GetCurrentValue` have the same
prototype: the caller passes exactly one argument, a `jstring`, and a `jstring`
comes back; the descriptor of both is one `String` in, one `String` out; neither
an argument nor the result is a sequence; and a `jstring` result can be
absent, which differs from the empty string. -/
theorem value_getters_share_signature :
    declOf .GetDefaultValue = some getUserJvmOptionDefaultValue ∧
    declOf .GetCurrentValue = some getUserJvmOptionValue ∧
    getUserJvmOptionDefaultValue.params = getUserJvmOptionValue.params ∧
    getUserJvmOptionDefaultValue.returnType = getUserJvmOptionValue.returnType ∧
    getUserJvmOptionDefaultValue.signature = getUserJvmOptionValue.signature ∧
    getUserJvmOptionDefaultValue.params = [.ptr .JNIEnv, .jclass, .jstring] ∧
    getUserJvmOptionDefaultValue.callerArgs = [.jstring] ∧
    getUserJvmOptionValue.callerArgs = [.jstring] ∧
    getUserJvmOptionDefaultValue.returnType = .jstring ∧
    getUserJvmOptionValue.returnType = .jstring ∧
    parseDescriptor getUserJvmOptionDefaultValue.signature = some ([.string], .string) ∧
    parseDescriptor getUserJvmOptionValue.signature = some ([.string], .string) ∧
    CType.isSequence .jstring = false ∧
    (none : CType.Value .jstring) ≠ some "" := by
  refine ⟨by decide, by decide, by decide, by decide, by decide, by decide, by decide,
    by decide, by decide, by decide, by decide, by decide, by decide, ?_⟩
  intro h
  cases h

/-- C3: the declaration of `SetKeysAndValues` takes exactly two caller
arguments, both `jobjectArray` (arrays of `String` by its descriptor), and
returns `void`; it is the only declaration of the header that returns `void` and
the only one with a sequence among its caller arguments. -/
theorem setter_signature :
    declOf .SetKeysAndValues = some setUserJvmKeysAndValues ∧
    setUserJvmKeysAndValues.params = [.ptr .JNIEnv, .jclass, .jobjectArray, .jobjectArray] ∧
    setUserJvmKeysAndValues.callerArgs = [.jobjectArray, .jobjectArray] ∧
    setUserJvmKeysAndValues.returnType = .void ∧
    parseDescriptor setUserJvmKeysAndValues.signature =
      some ([.array .string, .array .string], .void) ∧
    exportsHeader.filter (fun d => d.returnType == .void) = [setUserJvmKeysAndValues] ∧
    exportsHeader.filter (fun d => d.callerArgs.any CType.isSequence) =
      [setUserJvmKeysAndValues] := by
  decide

/-- C4: the declarations of `GetDefaultKeys` and `GetCurrentKeys` have the same
prototype: the caller passes no argument and a `jobjectArray` comes back, an
array of `String` by the descriptor of both. -/
theorem key_getters_share_signature :
    declOf .GetDefaultKeys = some getUserJvmOptionDefaultKeys ∧
    declOf .GetCurrentKeys = some getUserJvmOptionKeys ∧
    getUserJvmOptionDefaultKeys.params = getUserJvmOptionKeys.params ∧
    getUserJvmOptionDefaultKeys.returnType = getUserJvmOptionKeys.returnType ∧
    getUserJvmOptionDefaultKeys.signature = getUserJvmOptionKeys.signature ∧
    getUserJvmOptionDefaultKeys.params = [.ptr .JNIEnv, .jclass] ∧
    getUserJvmOptionDefaultKeys.callerArgs = [] ∧
    getUserJvmOptionKeys.callerArgs = [] ∧
    getUserJvmOptionDefaultKeys.returnType = .jobjectArray ∧
    getUserJvmOptionKeys.returnType = .jobjectArray ∧
    CType.isSequence .jobjectArray = true ∧
    parseDescriptor getUserJvmOptionDefaultKeys.signature = some ([], .array .string) ∧
    parseDescriptor getUserJvmOptionKeys.signature = some ([], .array .string) := by
  decide

/-- C8, as stated, fails: the number of operations the header declares is not four. -/
theorem header_operation_count_ne_four : exportsHeader.length ≠ 4 := by
  decide

/-- C8, amended: the header declares five operations, one for each of the five
operations the specification lists. -/
theorem header_operation_count :
    exportsHeader.length = 5 ∧ Operation.all.length = 5 ∧
    Operation.all.map declOf = exportsHeader.map some := by
  decide

/-- C9: for every declaration of the header, the C symbol is `Java_`, then the
class name of the comment (the header's class), then `_`, then the method name
of the comment with every underscore written `_1`; and the declaration is the
only one in the header with that symbol. -/
theorem symbol_is_jni_mangling (d : ExportDecl) (hd : d ∈ exportsHeader) :
    d.symbol = jniSymbolName d.className d.method ∧
    d.symbol = "Java_" ++ headerClass ++ "_" ++ escapeUnderscore d.method ∧
    exportsHeader.filter (fun e => e.symbol == jniSymbolName d.className d.method) = [d] := by
  revert d
  decide

/-- C9 at the last declaration: method `_getUserJvmOptionKeys` gives the suffix
`__1getUserJvmOptionKeys`. -/
theorem symbol_is_jni_mangling_witness :
    getUserJvmOptionKeys ∈ exportsHeader ∧
    "_" ++ escapeUnderscore "_getUserJvmOptionKeys" = "__1getUserJvmOptionKeys" ∧
    getUserJvmOptionKeys.symbol =
      jniSymbolName getUserJvmOptionKeys.className getUserJvmOptionKeys.method :=
  ⟨by decide, by decide, (symbol_is_jni_mangling getUserJvmOptionKeys (by decide)).1⟩

/-- C10: for every declaration of the header, the descriptor of the comment
parses, and the prototype is the one it calls for: the parameters are
`JNIEnv *`, `jclass`, then one per descriptor argument (`jstring` for
`Ljava/lang/String;`, `jobjectArray` for `[Ljava/lang/String;`), and the return
type is `jstring`, `jobjectArray` or `void` for `Ljava/lang/String;`,
`[Ljava/lang/String;` or `V`. -/
theorem prototype_matches_descriptor (d : ExportDecl) (hd : d ∈ exportsHeader) :
    prototypeOfDescriptor d.signature = some (d.returnType, d.params) ∧
    ∃ args ret, parseDescriptor d.signature = some (args, ret) ∧
      d.params = .ptr .JNIEnv :: .jclass :: d.callerArgs ∧
      d.callerArgs.length = args.length ∧
      args.mapM cParamType = some d.callerArgs ∧
      cReturnType ret = some d.returnType := by
  simp only [exportsHeader, List.mem_cons, List.mem_singleton, List.not_mem_nil,
    or_false] at hd
  rcases hd with rfl | rfl | rfl | rfl | rfl
  · exact ⟨by decide, [.string], .string, by decide, by decide, by decide, by decide,
      by decide⟩
  · exact ⟨by decide, [], .array .string, by decide, by decide, by decide, by decide,
      by decide⟩
  · exact ⟨by decide, [.string], .string, by decide, by decide, by decide, by decide,
      by decide⟩
  · exact ⟨by decide, [.array .string, .array .string], .void, by decide, by decide,
      by decide, by decide, by decide⟩
  · exact ⟨by decide, [], .array .string, by decide, by decide, by decide, by decide,
      by decide⟩

/-- C10 at the declaration with two arguments and no result. -/
theorem prototype_matches_descriptor_witness :
    setUserJvmKeysAndValues ∈ exportsHeader ∧
    prototypeOfDescriptor "([Ljava/lang/String;[Ljava/lang/String;)V" =
      some (.void, [.ptr .JNIEnv, .jclass, .jobjectArray, .jobjectArray]) :=
  ⟨by decide, (prototype_matches_descriptor setUserJvmKeysAndValues (by decide)).1⟩

/-! ## Claims about the bridge -/

namespace Bridge

/-- C5, as stated, fails: with keys `["a", "a"]` and values `["1", "2"]`, two
sequences of equal length, the round trip does not hold at position 0 under
either write policy, since `GetCurrentValue "a"` is a single value. -/
theorem round_trip_fails_on_repeated_key :
    ["a", "a"].length = ["1", "2"].length ∧
    ¬ RoundTrip .merge ["a", "a"] ["1", "2"] ⟨[], []⟩ ∧
    ¬ RoundTrip .replace ["a", "a"] ["1", "2"] ⟨[], []⟩ ∧
    (GetCurrentValue "a" (SetKeysAndValues .merge ["a", "a"] ["1", "2"] ⟨[], []⟩).2).1 =
      some "2" := by
  refine ⟨rfl, ?_, ?_, by decide⟩
  · intro h
    have h0 := (h 0 "a" "1" rfl rfl).2
    revert h0
    decide
  · intro h
    have h0 := (h 0 "a" "1" rfl rfl).2
    revert h0
    decide

/-- C5, amended: for every pair of equal-length sequences `keys` and `values` in
which equal keys carry equal values (in particular whenever the keys are
pairwise distinct), after `SetKeysAndValues(keys, values)` every key `keys[i]`
is reported by `GetCurrentKeys()` and `GetCurrentValue(keys[i])` returns
`values[i]`, whatever the write policy, the default mapping and the prior
current mapping. -/
theorem set_then_get_round_trip (policy : WritePolicy) (keys values : List String)
    (s : BridgeState) (hlen : keys.length = values.length)
    (hcons : ConsistentPairs keys values) :
    RoundTrip policy keys values s := by
  intro i k v hk hv
  have hmem : (k, v) ∈ keys.zip values :=
    (mem_zip_iff_getElem? keys values k v).mpr ⟨i, hk, hv⟩
  simp only [SetKeysAndValues, hlen, if_true, GetCurrentKeys, GetCurrentValue]
  constructor
  · rw [mem_mappingKeys_applyPairs]
    exact Or.inl (List.mem_map.mpr ⟨(k, v), hmem, rfl⟩)
  · apply lookupValue_applyPairs _ _ _ _ hmem
    intro w hw
    obtain ⟨j, hj, hjw⟩ := (mem_zip_iff_getElem? keys values k w).mp hw
    exact hcons j i k w v hj hk hjw hv

/-- C5, amended, on the specification's scenario: default `memory = 512m`, then
`SetKeysAndValues(["memory"], ["1024m"])`. -/
theorem set_then_get_round_trip_witness :
    ["memory"].length = ["1024m"].length ∧ ConsistentPairs ["memory"] ["1024m"] ∧
    RoundTrip .merge ["memory"] ["1024m"] ⟨[("memory", "512m")], []⟩ :=
  ⟨rfl, consistentPairs_of_nodup _ _ (by decide),
    set_then_get_round_trip .merge ["memory"] ["1024m"] ⟨[("memory", "512m")], []⟩ rfl
      (consistentPairs_of_nodup _ _ (by decide))⟩

/-- C6: a call of `SetKeysAndValues` whose sequences differ in length is
rejected with an error, and afterwards the state, and so what `GetCurrentKeys`
and `GetCurrentValue` report, is what it was before the call. -/
theorem mismatched_lengths_rejected (policy : WritePolicy) (keys values : List String)
    (s : BridgeState) (hne : keys.length ≠ values.length) :
    (SetKeysAndValues policy keys values s).1 = .error .invalidArgument ∧
    (SetKeysAndValues policy keys values s).2 = s ∧
    (GetCurrentKeys (SetKeysAndValues policy keys values s).2).1 = (GetCurrentKeys s).1 ∧
    ∀ key, (GetCurrentValue key (SetKeysAndValues policy keys values s).2).1 =
      (GetCurrentValue key s).1 := by
  simp [SetKeysAndValues, hne]

/-- C6 on two keys and one value, over a current mapping that holds one of the keys. -/
theorem mismatched_lengths_rejected_witness :
    ["a", "b"].length ≠ ["1"].length ∧
    (SetKeysAndValues .merge ["a", "b"] ["1"] ⟨[], [("a", "0")]⟩).1 =
      .error .invalidArgument ∧
    (SetKeysAndValues .merge ["a", "b"] ["1"] ⟨[], [("a", "0")]⟩).2 = ⟨[], [("a", "0")]⟩ :=
  ⟨by decide,
    (mismatched_lengths_rejected .merge ["a", "b"] ["1"] ⟨[], [("a", "0")]⟩ (by decide)).1,
    (mismatched_lengths_rejected .merge ["a", "b"] ["1"] ⟨[], [("a", "0")]⟩ (by decide)).2.1⟩

/-- C7: the four read operations return the state they were given, default and
current mapping alike; `SetKeysAndValues` leaves the default mapping as it was,
so `GetDefaultValue` of any key, and `GetDefaultKeys`, report the same before
and after any `SetKeysAndValues` call. -/
theorem only_set_changes_state (policy : WritePolicy) (keys values : List String)
    (s : BridgeState) (key : String) :
    (GetDefaultValue key s).2 = s ∧ (GetDefaultKeys s).2 = s ∧
    (GetCurrentValue key s).2 = s ∧ (GetCurrentKeys s).2 = s ∧
    (SetKeysAndValues policy keys values s).2.defaultMapping = s.defaultMapping ∧
    (GetDefaultValue key (SetKeysAndValues policy keys values s).2).1 =
      (GetDefaultValue key s).1 ∧
    (GetDefaultKeys (SetKeysAndValues policy keys values s).2).1 = (GetDefaultKeys s).1 := by
  have hdef : (SetKeysAndValues policy keys values s).2.defaultMapping = s.defaultMapping := by
    unfold SetKeysAndValues
    split <;> rfl
  refine ⟨rfl, rfl, rfl, rfl, hdef, ?_, ?_⟩
  · simp only [GetDefaultValue, hdef]
  · simp only [GetDefaultKeys, hdef]

end Bridge

end Exports
